import Mathlib

/-
Shallow embedding of the Pearson LaTeX builder
(source/_exts/pearson/builder.py) from the pymotw-3 repository.

The builder is a thin sequencing layer over a host documentation
framework (Sphinx): document trees, template rendering, file copying and
cross-reference resolution are host-owned.  Host operations are modelled
as explicit parameters or as lookups in an explicit environment
(an association list docname -> parsed tree); machine-level details of
the host (pickled doctree files, the theming engine's internals) are out
of scope.  Every definition below mirrors a specific region of
builder.py, noted in its doc comment.
-/

/-- Zero-padded decimal formatting, Python str.format with a 0-padded
minimum field width (builder.py uses the formats with widths 2 and 3 at
lines 213-215 and 222-224): a number wider than the field prints in
full. -/
def padNum (w n : Nat) : String :=
  let s := Nat.repr n
  String.mk (List.replicate (w - s.length) '0') ++ s

/-- Python os.path.basename restricted to slash-separated paths, as used
on the logo path in `finish` (builder.py line 324). -/
def basename (p : String) : String :=
  (p.splitOn "/").getLastD ""

/-- Docutils document-tree nodes, restricted to the constructors the
builder manipulates: text runs, emphasis runs, pending cross-reference
markers (attributes refdocname / refsectname, read at builder.py lines
280-281), and generic elements with children.  The source builds
`nodes.emphasis(sectname, sectname)` with rawsource equal to the text,
so one string field suffices. -/
inductive DocNode where
  | text (s : String)
  | emphasis (s : String)
  | pending_xref (refdocname refsectname : String)
  | element (children : List DocNode)

/-- Python str.startswith, modelled on the character lists of the two
strings. -/
def str_startswith (s pre : String) : Bool :=
  pre.data.isPrefixOf s.data

/-- The replacement nodes for one leftover pending cross-reference
marker (builder.py lines 279-291): an emphasis run naming the target
section, then, for the first entry (subdir, title) of the builder's
title mapping whose subdir is a prefix of the target docname, the
three extra nodes Text " (in ", emphasis title, Text ")"; the for-else
branch adds nothing when no entry matches. -/
def xref_replacement (titles : List (String × String)) (docname sectname : String) :
    List DocNode :=
  DocNode.emphasis sectname ::
    (match titles.find? (fun pr => str_startswith docname pr.1) with
     | some pr => [DocNode.text " (in ", DocNode.emphasis pr.2, DocNode.text ")"]
     | none => [])

mutual

/-- One step of the rewriting loop of builder.py lines 279-291: a
pending_xref node is replaced in place (docutils replace_self splices a
list of nodes into the parent's children), every other node is kept,
recursing into element children. -/
def resolve_pending (titles : List (String × String)) : DocNode → List DocNode
  | DocNode.pending_xref d s => xref_replacement titles d s
  | DocNode.element cs => [DocNode.element (resolve_pending_list titles cs)]
  | DocNode.text s => [DocNode.text s]
  | DocNode.emphasis s => [DocNode.emphasis s]

/-- The rewriting loop applied to a list of sibling nodes. -/
def resolve_pending_list (titles : List (String × String)) : List DocNode → List DocNode
  | [] => []
  | n :: ns => resolve_pending titles n ++ resolve_pending_list titles ns

end

mutual

/-- Whether a tree still contains a pending cross-reference marker. -/
def has_pending : DocNode → Bool
  | DocNode.pending_xref _ _ => true
  | DocNode.element cs => has_pending_list cs
  | DocNode.text _ => false
  | DocNode.emphasis _ => false

/-- Whether a list of sibling trees still contains a pending marker. -/
def has_pending_list : List DocNode → Bool
  | [] => false
  | n :: ns => has_pending n || has_pending_list ns

end

/-- The rewriting loop applied to a whole document: the document root is
an element, whose replacement is a single node. -/
def resolve_doc (titles : List (String × String)) (t : DocNode) : DocNode :=
  match resolve_pending titles t with
  | [n] => n
  | ns => DocNode.element ns

/-- Docutils document.append of one appendix tree (builder.py line 273):
the appendix becomes the last child of the composite tree. -/
def append_child : DocNode → DocNode → DocNode
  | DocNode.element cs, a => DocNode.element (cs ++ [a])
  | n, _ => n

/-- The appendix loop of builder.py lines 270-273: each appendix docname
is fetched from the environment and appended; an unknown appendix
docname makes the environment lookup fail, which aborts. -/
def append_appendices (gd : String → Except String DocNode) :
    DocNode → List String → Except String DocNode
  | tree, [] => Except.ok tree
  | tree, d :: rest =>
    match gd d with
    | Except.error e => Except.error e
    | Except.ok a => append_appendices gd (append_child tree a) rest

/-- PearsonLaTeXBuilder.assemble_doctree (builder.py lines 251-292),
modelled for toctree_only = False, the only value `write` passes (line
197).  The host operations env.get_doctree, inline_all_toctrees and
env.resolve_references are parameters; the builder's title mapping is
the `titles` parameter.  The first component is the new value of
self.docnames, assigned at line 252 before anything else: the set of the
root identifier plus the appendices, discarding the prior value. -/
def assemble_doctree (gd : String → Except String DocNode)
    (inline_toctrees resolve_references : DocNode → DocNode)
    (titles : List (String × String)) ( _prior_docnames : List String)
    (indexfile : String) (appendices : List String) :
    List String × Except String DocNode :=
  (indexfile :: appendices,
   match gd indexfile with
   | Except.error e => Except.error e
   | Except.ok tree =>
     match append_appendices gd (inline_toctrees tree) appendices with
     | Except.error e => Except.error e
     | Except.ok t2 => Except.ok (resolve_doc titles (resolve_references t2)))

/-- PearsonLaTeXBuilder.get_target_uri (builder.py lines 72-76): raises
NoUri (modelled as Except.error ()) when the docname is not in
self.docnames, otherwise returns a percent sign followed by the
docname. -/
def get_target_uri (docnames : List String) (docname : String) : Except Unit String :=
  if docname ∉ docnames then Except.error ()
  else Except.ok ("%" ++ docname)

/-- PearsonLaTeXBuilder.get_relative_uri (builder.py lines 78-80):
ignores the source path and delegates to get_target_uri. -/
def get_relative_uri (docnames : List String) ( _fro to_ : String) : Except Unit String :=
  get_target_uri docnames to_

/-- The global template context built in `write` (builder.py lines
162-168, extended with external_docs at lines 231-234). -/
structure GlobalContext where
  title : String
  subtitle : String
  author : String
  chapter_names : List String
  appendices : List String
  external_docs : List String
deriving DecidableEq

/-- A template-engine exception, as the source consumes it: it carries a
message and (as the source assumes at line 121) a source line number. -/
structure RenderError where
  message : String
  lineno : Nat
deriving DecidableEq

/-- PearsonLaTeXBuilder._render_template (builder.py lines 111-125):
logs the file being written, renders through the host template bridge
(the `render` parameter), and on an exception logs a message carrying
the template name and the error's line number and re-raises (the error
is the second component; the log lines are the first). -/
def render_template (render : String → GlobalContext → Except RenderError String)
    (template_name file_name : String) (context : GlobalContext) :
    List String × Except RenderError String :=
  match render template_name context with
  | Except.error err =>
      (["writing " ++ file_name,
        "Failed to render template " ++ template_name ++ ": " ++ err.message ++
          " at " ++ Nat.repr err.lineno],
       Except.error err)
  | Except.ok body => (["writing " ++ file_name], Except.ok body)

/-- The builder configuration and environment consumed by `write`:
the ordered chapter list (pearson_chapters), the appendix list
(latex_appendices), the host environment's parsed documents keyed by
docname (env.all_docs together with env.get_doctree), the title page
strings and the output directory. -/
structure WriteConfig where
  pearson_chapters : List String
  latex_appendices : List String
  env_docs : List (String × DocNode)
  pearson_title : String
  pearson_subtitle : String
  pearson_author : String
  outdir : String

/-- The set of known documents, env.all_docs keys (builder.py line
105). -/
def all_docs (env : List (String × DocNode)) : List String :=
  env.map Prod.fst

/-- Host env.get_doctree: resolves a docname to its parsed tree; an
unknown docname fails (the host reads a per-document file that does not
exist). -/
def get_doctree (env : List (String × DocNode)) (docname : String) :
    Except String DocNode :=
  match env.lookup docname with
  | some t => Except.ok t
  | none => Except.error ("no document named " ++ docname)

/-- The warning emitted for an unknown chapter identifier (builder.py
lines 106-107). -/
def unknown_chapter_warning (chap : String) : String :=
  "\"pearson_chapters\" config value references unknown document " ++ chap

/-- The warning emitted when the chapter list is empty (builder.py lines
100-101). -/
def no_chapters_warning : String :=
  "no \"pearson_chapters\" config value found; no documents will be written"

/-- The loop of PearsonLaTeXBuilder.init_chapters (builder.py lines
104-109): known identifiers are appended to document_data in input
order, unknown ones produce a warning and are skipped.  Returns
(document_data, warnings). -/
def init_chapters_loop (all_l : List String) : List String → List String × List String
  | [] => ([], [])
  | chap :: rest =>
    let acc := init_chapters_loop all_l rest
    if chap ∈ all_l then (chap :: acc.1, acc.2)
    else (acc.1, unknown_chapter_warning chap :: acc.2)

/-- PearsonLaTeXBuilder.init_chapters (builder.py lines 97-109): an
empty chapter list only warns; otherwise each chapter is checked against
the known documents. -/
def init_chapters (chapters all_l : List String) : List String × List String :=
  if chapters.isEmpty then ([], [no_chapters_warning])
  else init_chapters_loop all_l chapters

/-- The observable steps of `write`: the pygments stylesheet, a template
rendered to the output directory, and one output unit written for a
document (process_doc writes the rendered doctree of `docname` to
`name`.tex). -/
inductive WriteEvent where
  | pygments
  | render_template (template_name : String)
  | write_doc (docname name : String)
deriving DecidableEq

/-- The ways `write` aborts: a template exception re-raised by
_render_template (carrying the template name), or a failed doctree
lookup. -/
inductive WriteError where
  | render (template_name : String) (e : RenderError)
  | doctree (msg : String)
deriving DecidableEq

/-- The outcome of a completed `write` run: the warnings from
init_chapters, the ordered observable steps, and the final global
context the book template is rendered with. -/
structure WriteResult where
  warnings : List String
  events : List WriteEvent
  context : GlobalContext
deriving DecidableEq

/-- The body of process_doc (builder.py lines 181-210) as far as it is
observable: the output name is name_fmt.format(num), the doctree of
`docname` is fetched (line 187; an unknown docname aborts), assembled
and written to name.tex, and the name is returned.  The width and stem
stand for the chap/app format strings. -/
def process_doc (env : List (String × DocNode)) (stem : String) (w : Nat)
    (num : Nat) (docname : String) : Except WriteError (WriteEvent × String) :=
  let name := stem ++ padNum w num
  match get_doctree env docname with
  | Except.error e => Except.error (WriteError.doctree e)
  | Except.ok _tree => Except.ok (WriteEvent.write_doc docname name, name)

/-- One enumerate-from-`num` loop of `write` (builder.py lines 217-219
and 226-228): each docname is processed with its 1-based position and
the names are accumulated in order. -/
def process_seq (env : List (String × DocNode)) (w : Nat) (stem : String) :
    Nat → List String → Except WriteError (List WriteEvent × List String)
  | _, [] => Except.ok ([], [])
  | num, docname :: rest =>
    match process_doc env stem w num docname with
    | Except.error e => Except.error e
    | Except.ok evname =>
      match process_seq env w stem (num + 1) rest with
      | Except.error e => Except.error e
      | Except.ok rest_res =>
        Except.ok (evname.1 :: rest_res.1, evname.2 :: rest_res.2)

/-- The names an enumerate-from-`num` loop produces, in order. -/
def seq_names (stem : String) (w : Nat) : Nat → List String → List String
  | _, [] => []
  | num, _ :: rest => (stem ++ padNum w num) :: seq_names stem w (num + 1) rest

/-- The chapter half of `write` (builder.py lines 155 and 212-219):
init_chapters filters the configured chapters, the format width is 3
once the retained list has at least 100 entries and 2 otherwise, and the
retained documents are processed starting at 1.  Returns the
init_chapters warnings and the loop outcome. -/
def chapter_phase (env : List (String × DocNode)) (chapters : List String) :
    List String × Except WriteError (List WriteEvent × List String) :=
  let idata := init_chapters chapters (all_docs env)
  ((idata.2 : List String),
   process_seq env (if 100 ≤ idata.1.length then 3 else 2) "chap" 1 idata.1)

/-- The appendix half of `write` (builder.py lines 221-228): the
configured appendix list is processed as-is, with no membership check,
the width again switching at 100 entries. -/
def appendix_phase (env : List (String × DocNode)) (appendices : List String) :
    Except WriteError (List WriteEvent × List String) :=
  process_seq env (if 100 ≤ appendices.length then 3 else 2) "app" 1 appendices

/-- The global context as first built at builder.py lines 162-168. -/
def initial_context (cfg : WriteConfig) : GlobalContext :=
  { title := cfg.pearson_title, subtitle := cfg.pearson_subtitle,
    author := cfg.pearson_author,
    chapter_names := [], appendices := [], external_docs := [] }

/-- The global context the book template is rendered with (builder.py
lines 217-239): the accumulated chapter and appendix names, and
external_docs set to their concatenation. -/
def book_context (cfg : WriteConfig) (chapter_names appendices : List String) :
    GlobalContext :=
  { initial_context cfg with
    chapter_names := chapter_names, appendices := appendices,
    external_docs := chapter_names ++ appendices }

/-- PearsonLaTeXBuilder.write (builder.py lines 148-239): init_chapters,
the pygments stylesheet, the half-title and title templates, the chapter
loop, the appendix loop, then the book template rendered with the
accumulated context.  Any template exception or failed doctree lookup
aborts with the corresponding error. -/
def write (render : String → GlobalContext → Except RenderError String)
    (cfg : WriteConfig) : Except WriteError WriteResult :=
  match (render_template render "half-title.tex" (cfg.outdir ++ "/half-title.tex")
          (initial_context cfg)).2 with
  | Except.error e => Except.error (WriteError.render "half-title.tex" e)
  | Except.ok _ =>
    match (render_template render "title.tex" (cfg.outdir ++ "/title.tex")
            (initial_context cfg)).2 with
    | Except.error e => Except.error (WriteError.render "title.tex" e)
    | Except.ok _ =>
      match (chapter_phase cfg.env_docs cfg.pearson_chapters).2 with
      | Except.error e => Except.error e
      | Except.ok chap_res =>
        match appendix_phase cfg.env_docs cfg.latex_appendices with
        | Except.error e => Except.error e
        | Except.ok app_res =>
          match (render_template render "book.tex" (cfg.outdir ++ "/book.tex")
                  (book_context cfg chap_res.2 app_res.2)).2 with
          | Except.error e => Except.error (WriteError.render "book.tex" e)
          | Except.ok _ =>
            Except.ok
              { warnings := (chapter_phase cfg.env_docs cfg.pearson_chapters).1,
                events := WriteEvent.pygments
                  :: WriteEvent.render_template "half-title.tex"
                  :: WriteEvent.render_template "title.tex"
                  :: (chap_res.1 ++ app_res.1 ++
                      [WriteEvent.render_template "book.tex"]),
                context := book_context cfg chap_res.2 app_res.2 }

/-- The sectioning-related configuration read by check_options
(builder.py lines 55-67).  latex_toplevel_sectioning is the option being
validated; latex_top_sectionlevel is the distinct attribute the code
actually reads and assigns. -/
structure SectioningConfig where
  latex_toplevel_sectioning : Option String
  latex_top_sectionlevel : Option String
  latex_use_parts : Bool
deriving DecidableEq

/-- Python str interpolation of the option value ('%s' of None prints
"None"). -/
def option_str : Option String → String
  | none => "None"
  | some s => s

/-- Python truthiness of an optional string (None and the empty string
are falsy). -/
def truthy : Option String → Bool
  | none => false
  | some s => !(s == "")

/-- PearsonLaTeXBuilder.check_options (builder.py lines 55-67): when
latex_toplevel_sectioning is not one of None, part, chapter, section, a
warning is logged (interpolating self.config.latex_top_sectionlevel) and
the assignment `self.config.latex_top_sectionlevel = None` runs — note
the assigned attribute differs from the validated one.  The
latex_use_parts deprecation warnings follow.  Returns the updated
configuration and the warnings in order. -/
def check_options (c : SectioningConfig) : SectioningConfig × List String :=
  let invalid := c.latex_toplevel_sectioning ∉
    ([none, some "part", some "chapter", some "section"] : List (Option String))
  let c1 := if invalid then { c with latex_top_sectionlevel := none } else c
  let ws1 := if invalid then
      ["invalid latex_toplevel_sectioning, ignored: " ++
        option_str c.latex_top_sectionlevel]
    else []
  let ws2 :=
    if c.latex_use_parts then
      ["latex_use_parts will be removed at Sphinx-1.5. Use latex_toplevel_sectioning instead."]
      ++ (if truthy c.latex_toplevel_sectioning then
            ["latex_use_parts conflicts with latex_toplevel_sectioning, ignored."]
          else [])
    else []
  (c1, ws1 ++ ws2)

/-- The configuration and filesystem state consumed by `finish`
(builder.py lines 294-343): the image map, the additional files, the
optional logo path, the files present under the configuration directory
and under the output directory, and the theme's directory chain (None
when no theme is set). -/
structure FinishConfig where
  images : List (String × String)
  latex_additional_files : List String
  latex_logo : Option String
  confdir_files : List String
  outdir_files : List String
  theme_dirchain : Option (List String)

/-- The observable copy steps of `finish`. -/
inductive FinishEvent where
  | copy_image (src dest : String)
  | copy_additional (name : String)
  | copy_logo (name : String)
  | copy_static (entry : String)
deriving DecidableEq

/-- PearsonLaTeXBuilder.finish (builder.py lines 294-343): copies
images, then additional files; then, if a logo is configured, raises
SphinxError (the second component) when the logo file does not exist
under confdir, else copies it unless the target already exists; finally
copies the theme's static entries (the dirchain reversed, each joined
with "static").  On the logo error the events so far are the first
component and nothing later runs. -/
def finish (c : FinishConfig) : List FinishEvent × Option String :=
  let ev_images := c.images.map (fun pr => FinishEvent.copy_image pr.1 pr.2)
  let ev_addl := c.latex_additional_files.map FinishEvent.copy_additional
  let static_evs :=
    match c.theme_dirchain with
    | some chain => chain.reverse.map (fun d => FinishEvent.copy_static (d ++ "/static"))
    | none => []
  match c.latex_logo with
  | none => (ev_images ++ ev_addl ++ static_evs, none)
  | some logo =>
      if logo ∈ c.confdir_files then
        let ev_logo := if basename logo ∈ c.outdir_files then []
          else [FinishEvent.copy_logo logo]
        (ev_images ++ ev_addl ++ ev_logo ++ static_evs, none)
      else
        (ev_images ++ ev_addl, some ("logo file " ++ logo ++ " does not exist"))

/-- A docname among the known documents has a tree in the
environment. -/
theorem lookup_some_of_mem {env : List (String × DocNode)} {d : String}
    (h : d ∈ all_docs env) : ∃ t, env.lookup d = some t := by
  induction env with
  | nil => simp [all_docs] at h
  | cons p rest ih =>
    obtain ⟨k, v⟩ := p
    by_cases hd : d = k
    · exact ⟨v, by simp [List.lookup, hd]⟩
    · have hm : d ∈ all_docs rest := by
        simp [all_docs] at h ⊢
        tauto
      obtain ⟨t, ht⟩ := ih hm
      exact ⟨t, by simp [List.lookup, show (d == k) = false by simp [hd], ht]⟩

/-- A docname outside the known documents has no tree in the
environment. -/
theorem lookup_none_of_not_mem {env : List (String × DocNode)} {d : String}
    (h : d ∉ all_docs env) : env.lookup d = none := by
  induction env with
  | nil => rfl
  | cons p rest ih =>
    obtain ⟨k, v⟩ := p
    simp [all_docs] at h
    simp [List.lookup, show (d == k) = false by simp [h.1],
      ih (by simp [all_docs]; exact h.2)]

/-- process_doc succeeds on a known docname and yields the formatted
name. -/
theorem process_doc_ok {env : List (String × DocNode)} {d : String}
    (h : d ∈ all_docs env) (stem : String) (w num : Nat) :
    process_doc env stem w num d =
      Except.ok (WriteEvent.write_doc d (stem ++ padNum w num), stem ++ padNum w num) := by
  obtain ⟨t, ht⟩ := lookup_some_of_mem h
  simp [process_doc, get_doctree, ht]

/-- A loop over known docnames succeeds, writing each document in input
order under its enumerated name. -/
theorem process_seq_ok_of_known {env : List (String × DocNode)} (w : Nat) (stem : String)
    (docs : List String) (h : ∀ d ∈ docs, d ∈ all_docs env) : ∀ start,
    process_seq env w stem start docs =
      Except.ok ((docs.zip (seq_names stem w start docs)).map
          (fun q => WriteEvent.write_doc q.1 q.2),
        seq_names stem w start docs) := by
  induction docs with
  | nil => intro start; simp [process_seq, seq_names]
  | cons d rest ih =>
    intro start
    have hd : d ∈ all_docs env := h d (List.mem_cons_self ..)
    rw [process_seq, process_doc_ok hd,
      ih (fun x hx => h x (List.mem_cons_of_mem _ hx)) (start + 1)]
    simp [seq_names]

/-- The names an enumerate loop produces, as a closed range map. -/
theorem seq_names_eq_range (stem : String) (w : Nat) (docs : List String) : ∀ start,
    seq_names stem w start docs =
      (List.range docs.length).map (fun i => stem ++ padNum w (start + i)) := by
  induction docs with
  | nil => intro start; simp [seq_names]
  | cons d rest ih =>
    intro start
    rw [seq_names, ih (start + 1), List.length_cons, List.range_succ_eq_map,
      List.map_cons, List.map_map]
    congr 1
    refine List.map_congr_left (fun i _ => ?_)
    have h1 : start + 1 + i = start + Nat.succ i := by omega
    simp [Function.comp, h1]

/-- init_chapters retains exactly the known chapters, in input order. -/
theorem init_chapters_loop_fst (all_l : List String) (chs : List String) :
    (init_chapters_loop all_l chs).1 = chs.filter (fun c => decide (c ∈ all_l)) := by
  induction chs with
  | nil => rfl
  | cons c rest ih =>
    by_cases hc : c ∈ all_l <;> simp [init_chapters_loop, List.filter_cons, hc, ih]

/-- init_chapters warns once, in input order, for each unknown
chapter. -/
theorem init_chapters_loop_snd (all_l : List String) (chs : List String) :
    (init_chapters_loop all_l chs).2 =
      (chs.filter (fun c => !decide (c ∈ all_l))).map unknown_chapter_warning := by
  induction chs with
  | nil => rfl
  | cons c rest ih =>
    by_cases hc : c ∈ all_l <;> simp [init_chapters_loop, List.filter_cons, hc, ih]

/-- Every chapter retained by init_chapters is a known document. -/
theorem init_chapters_fst_subset (chapters all_l : List String) :
    ∀ d ∈ (init_chapters chapters all_l).1, d ∈ all_l := by
  intro d hd
  unfold init_chapters at hd
  by_cases h : chapters.isEmpty
  · simp [h] at hd
  · rw [if_neg h, init_chapters_loop_fst] at hd
    exact of_decide_eq_true (List.mem_filter.mp hd).2

/-- The retained chapter list of a configuration (self.document_data
after init_chapters). -/
def document_data (cfg : WriteConfig) : List String :=
  (init_chapters cfg.pearson_chapters (all_docs cfg.env_docs)).1

/-- The chapter output names a configuration produces. -/
def chap_names_spec (cfg : WriteConfig) : List String :=
  seq_names "chap" (if 100 ≤ (document_data cfg).length then 3 else 2) 1 (document_data cfg)

/-- The appendix output names a configuration produces. -/
def app_names_spec (cfg : WriteConfig) : List String :=
  seq_names "app" (if 100 ≤ cfg.latex_appendices.length then 3 else 2) 1 cfg.latex_appendices

/-- The chapter phase always succeeds (unknown chapters were filtered
out) and writes the retained documents in order under their enumerated
names. -/
theorem chapter_phase_ok_cfg (cfg : WriteConfig) :
    (chapter_phase cfg.env_docs cfg.pearson_chapters).2 = Except.ok
      (((document_data cfg).zip (chap_names_spec cfg)).map
          (fun q => WriteEvent.write_doc q.1 q.2),
        chap_names_spec cfg) := by
  unfold chapter_phase
  exact process_seq_ok_of_known _ _ _
    (fun d hd => init_chapters_fst_subset cfg.pearson_chapters (all_docs cfg.env_docs) d hd) 1

/-- The appendix phase succeeds when every appendix is known. -/
theorem appendix_phase_ok_cfg (cfg : WriteConfig)
    (happ : ∀ d ∈ cfg.latex_appendices, d ∈ all_docs cfg.env_docs) :
    appendix_phase cfg.env_docs cfg.latex_appendices = Except.ok
      ((cfg.latex_appendices.zip (app_names_spec cfg)).map
          (fun q => WriteEvent.write_doc q.1 q.2),
        app_names_spec cfg) := by
  unfold appendix_phase
  exact process_seq_ok_of_known _ _ _ happ 1

/-- A loop containing an unknown docname aborts with a doctree error. -/
theorem process_seq_error_of_unknown {env : List (String × DocNode)} (w : Nat)
    (stem : String) (docs : List String)
    (h : ∃ d ∈ docs, d ∉ all_docs env) : ∀ start,
    ∃ msg, process_seq env w stem start docs = Except.error (WriteError.doctree msg) := by
  induction docs with
  | nil => simp at h
  | cons d rest ih =>
    intro start
    by_cases hd : d ∈ all_docs env
    · have hrest : ∃ x ∈ rest, x ∉ all_docs env := by
        obtain ⟨x, hx, hnx⟩ := h
        rcases List.mem_cons.mp hx with rfl | hx'
        · exact absurd hd hnx
        · exact ⟨x, hx', hnx⟩
      obtain ⟨msg, hmsg⟩ := ih hrest (start + 1)
      exact ⟨msg, by rw [process_seq, process_doc_ok hd, hmsg]⟩
    · exact ⟨"no document named " ++ d,
        by rw [process_seq]; simp [process_doc, get_doctree, lookup_none_of_not_mem hd]⟩

/-- The full successful run of `write`: when the template engine
renders and every appendix is known, the run completes with the
init_chapters warnings, the linear event trace, and the book context. -/
theorem write_ok_spec (render : String → GlobalContext → Except RenderError String)
    (cfg : WriteConfig)
    (hr : ∀ tn ctx, ∃ b, render tn ctx = Except.ok b)
    (happ : ∀ d ∈ cfg.latex_appendices, d ∈ all_docs cfg.env_docs) :
    write render cfg = Except.ok
      { warnings := (chapter_phase cfg.env_docs cfg.pearson_chapters).1,
        events := WriteEvent.pygments
          :: WriteEvent.render_template "half-title.tex"
          :: WriteEvent.render_template "title.tex"
          :: (((document_data cfg).zip (chap_names_spec cfg)).map
                (fun q => WriteEvent.write_doc q.1 q.2)
              ++ (cfg.latex_appendices.zip (app_names_spec cfg)).map
                (fun q => WriteEvent.write_doc q.1 q.2)
              ++ [WriteEvent.render_template "book.tex"]),
        context := book_context cfg (chap_names_spec cfg) (app_names_spec cfg) } := by
  obtain ⟨b1, hb1⟩ := hr "half-title.tex" (initial_context cfg)
  obtain ⟨b2, hb2⟩ := hr "title.tex" (initial_context cfg)
  obtain ⟨b3, hb3⟩ := hr "book.tex" (book_context cfg (chap_names_spec cfg) (app_names_spec cfg))
  simp only [write, render_template, hb1, hb2, hb3, chapter_phase_ok_cfg cfg,
    appendix_phase_ok_cfg cfg happ]

/-- The sibling rewriting loop distributes over concatenation. -/
theorem resolve_pending_list_append (titles : List (String × String))
    (as bs : List DocNode) :
    resolve_pending_list titles (as ++ bs) =
      resolve_pending_list titles as ++ resolve_pending_list titles bs := by
  induction as with
  | nil => simp [resolve_pending_list]
  | cons a as ih => simp [resolve_pending_list, ih]

/-- has_pending_list distributes over concatenation. -/
theorem has_pending_list_append (as bs : List DocNode) :
    has_pending_list (as ++ bs) = (has_pending_list as || has_pending_list bs) := by
  induction as with
  | nil => simp [has_pending_list]
  | cons a as ih => simp [has_pending_list, ih, Bool.or_assoc]

/-- The replacement nodes for a pending marker contain no pending
marker. -/
theorem has_pending_list_xref (titles : List (String × String)) (d s : String) :
    has_pending_list (xref_replacement titles d s) = false := by
  unfold xref_replacement
  cases h : titles.find? (fun pr => str_startswith d pr.1) <;>
    simp [has_pending_list, has_pending]

mutual

/-- After the rewriting loop a tree contains no pending marker. -/
theorem has_pending_resolve (titles : List (String × String)) :
    (n : DocNode) → has_pending_list (resolve_pending titles n) = false
  | DocNode.text s => by simp [resolve_pending, has_pending_list, has_pending]
  | DocNode.emphasis s => by simp [resolve_pending, has_pending_list, has_pending]
  | DocNode.pending_xref d s => by
      rw [resolve_pending]
      exact has_pending_list_xref titles d s
  | DocNode.element cs => by
      simp only [resolve_pending, has_pending_list, has_pending, Bool.or_false]
      exact has_pending_resolve_list titles cs

/-- After the rewriting loop a sibling list contains no pending
marker. -/
theorem has_pending_resolve_list (titles : List (String × String)) :
    (ns : List DocNode) → has_pending_list (resolve_pending_list titles ns) = false
  | [] => by simp [resolve_pending_list, has_pending_list]
  | n :: ns => by
      rw [resolve_pending_list, has_pending_list_append,
        has_pending_resolve titles n, has_pending_resolve_list titles ns]
      rfl

end

/-- seq_names produces one name per document. -/
theorem seq_names_length (stem : String) (w : Nat) (docs : List String) : ∀ start,
    (seq_names stem w start docs).length = docs.length := by
  induction docs with
  | nil => intro start; rfl
  | cons d rest ih => intro start; simp [seq_names, ih (start + 1)]

/-- init_chapters keeps a fully-known chapter list unchanged. -/
theorem init_chapters_fst_of_all_known (chapters all_l : List String)
    (hall : ∀ c ∈ chapters, c ∈ all_l) :
    (init_chapters chapters all_l).1 = chapters := by
  unfold init_chapters
  by_cases h : chapters.isEmpty
  · rw [if_pos h, List.isEmpty_iff.mp h]
  · rw [if_neg h, init_chapters_loop_fst]
    refine List.filter_eq_self.mpr ?_
    intro a ha
    exact decide_eq_true (hall a ha)

/-- C1: For every chapter list whose identifiers all resolve to known
documents, with length L, the emitted chapter output files are named
exactly chap01 .. chapL, in the order of the input list, using two-digit
zero-padding when L < 100 and switching to three-digit zero-padding once
L >= 100. -/
theorem c1_chapter_output_names (env : List (String × DocNode)) (chapters : List String)
    (hall : ∀ c ∈ chapters, c ∈ all_docs env) :
    (chapter_phase env chapters).2 = Except.ok
      ((chapters.zip ((List.range chapters.length).map (fun i =>
          "chap" ++ padNum (if 100 ≤ chapters.length then 3 else 2) (1 + i)))).map
          (fun q => WriteEvent.write_doc q.1 q.2),
        (List.range chapters.length).map (fun i =>
          "chap" ++ padNum (if 100 ≤ chapters.length then 3 else 2) (1 + i))) := by
  have hdd := init_chapters_fst_of_all_known chapters (all_docs env) hall
  have hstart : (chapter_phase env chapters).2 =
      process_seq env
        (if 100 ≤ (init_chapters chapters (all_docs env)).1.length then 3 else 2)
        "chap" 1 (init_chapters chapters (all_docs env)).1 := rfl
  rw [hstart, hdd,
    process_seq_ok_of_known (if 100 ≤ chapters.length then 3 else 2) "chap" chapters hall 1,
    seq_names_eq_range "chap" (if 100 ≤ chapters.length then 3 else 2) chapters 1]

/-- An environment with two known documents. -/
def env2 : List (String × DocNode) :=
  [("intro", DocNode.element []), ("basics", DocNode.element [])]

/-- C1 witness: two known chapters come out as chap01, chap02, in input
order. -/
theorem c1_chapter_output_names_witness :
    (chapter_phase env2 ["intro", "basics"]).2 = Except.ok
      ([WriteEvent.write_doc "intro" "chap01", WriteEvent.write_doc "basics" "chap02"],
        ["chap01", "chap02"]) := by
  rw [c1_chapter_output_names env2 ["intro", "basics"] (by decide)]
  rfl

/-- C2: For every appendix list of length M, appendix output files are
named app01 .. appM in input order, and this numbering starts at 1
independently of how many chapter outputs were emitted before it: a
second run differing only in its chapter configuration yields the same
appendix names. -/
theorem c2_appendix_numbering
    (render render' : String → GlobalContext → Except RenderError String)
    (cfg cfg' : WriteConfig)
    (hr : ∀ tn ctx, ∃ b, render tn ctx = Except.ok b)
    (hr' : ∀ tn ctx, ∃ b, render' tn ctx = Except.ok b)
    (happ : ∀ d ∈ cfg.latex_appendices, d ∈ all_docs cfg.env_docs)
    (heq_apps : cfg'.latex_appendices = cfg.latex_appendices)
    (heq_env : cfg'.env_docs = cfg.env_docs) :
    ∃ r r', write render cfg = Except.ok r ∧ write render' cfg' = Except.ok r' ∧
      r.context.appendices = (List.range cfg.latex_appendices.length).map
        (fun i => "app" ++
          padNum (if 100 ≤ cfg.latex_appendices.length then 3 else 2) (1 + i)) ∧
      r'.context.appendices = r.context.appendices := by
  refine ⟨_, _, write_ok_spec render cfg hr happ,
    write_ok_spec render' cfg' hr'
      (by rw [heq_apps, heq_env]; exact happ), ?_, ?_⟩
  · show app_names_spec cfg = _
    unfold app_names_spec
    exact seq_names_eq_range "app" _ cfg.latex_appendices 1
  · show app_names_spec cfg' = app_names_spec cfg
    unfold app_names_spec
    rw [heq_apps]

/-- A configuration with one chapter and one appendix, both known. -/
def cfg_a : WriteConfig :=
  { pearson_chapters := ["intro"], latex_appendices := ["basics"],
    env_docs := env2, pearson_title := "t", pearson_subtitle := "s",
    pearson_author := "au", outdir := "out" }

/-- The same configuration with a different chapter list. -/
def cfg_b : WriteConfig := { cfg_a with pearson_chapters := ["intro", "basics"] }

/-- A template engine that always renders an empty body. -/
def render_ok : String → GlobalContext → Except RenderError String :=
  fun _ _ => Except.ok ""

/-- C2 witness: two runs differing only in their chapter lists both
succeed and give the same appendix names, starting at app01. -/
theorem c2_appendix_numbering_witness :
    ∃ r r', write render_ok cfg_a = Except.ok r ∧ write render_ok cfg_b = Except.ok r' ∧
      r.context.appendices = (List.range cfg_a.latex_appendices.length).map
        (fun i => "app" ++
          padNum (if 100 ≤ cfg_a.latex_appendices.length then 3 else 2) (1 + i)) ∧
      r'.context.appendices = r.context.appendices :=
  c2_appendix_numbering render_ok render_ok cfg_a cfg_b
    (fun _ _ => ⟨"", rfl⟩) (fun _ _ => ⟨"", rfl⟩) (by decide) rfl rfl

/-- C3: For every chapter list, each identifier that is not a known
document is reported with a warning and omitted, the run continues (the
chapter phase succeeds), and every remaining known identifier is still
emitted, in order. -/
theorem c3_unknown_chapters_skipped (env : List (String × DocNode))
    (chapters : List String) (hne : chapters ≠ []) :
    (init_chapters chapters (all_docs env)).1 =
      chapters.filter (fun c => decide (c ∈ all_docs env)) ∧
    (init_chapters chapters (all_docs env)).2 =
      (chapters.filter (fun c => !decide (c ∈ all_docs env))).map
        unknown_chapter_warning ∧
    ∃ evs names,
      (chapter_phase env chapters).2 = Except.ok (evs, names) ∧
      evs = ((chapters.filter (fun c => decide (c ∈ all_docs env))).zip names).map
          (fun q => WriteEvent.write_doc q.1 q.2) ∧
      names.length = (chapters.filter (fun c => decide (c ∈ all_docs env))).length := by
  have hne' : ¬chapters.isEmpty := by simpa [List.isEmpty_iff] using hne
  have hdd : (init_chapters chapters (all_docs env)).1 =
      chapters.filter (fun c => decide (c ∈ all_docs env)) := by
    rw [init_chapters, if_neg hne', init_chapters_loop_fst]
  refine ⟨hdd, ?_, ?_⟩
  · rw [init_chapters, if_neg hne', init_chapters_loop_snd]
  · have hsub := init_chapters_fst_subset chapters (all_docs env)
    have h := process_seq_ok_of_known
      (if 100 ≤ (init_chapters chapters (all_docs env)).1.length then 3 else 2)
      "chap" (init_chapters chapters (all_docs env)).1 hsub 1
    refine ⟨_, _, h, ?_, ?_⟩
    · rw [hdd]
    · rw [seq_names_length, hdd]

/-- C3 witness: with chapters [intro, ghost, basics] where ghost is
unknown, the unknown one is warned about, the phase succeeds, and both
known chapters are emitted. -/
theorem c3_unknown_chapters_skipped_witness :
    (init_chapters ["intro", "ghost", "basics"] (all_docs env2)).2 =
      [unknown_chapter_warning "ghost"] ∧
    ∃ evs names,
      (chapter_phase env2 ["intro", "ghost", "basics"]).2 = Except.ok (evs, names) ∧
      evs = ((["intro", "ghost", "basics"].filter
          (fun c => decide (c ∈ all_docs env2))).zip names).map
          (fun q => WriteEvent.write_doc q.1 q.2) := by
  have h := c3_unknown_chapters_skipped env2 ["intro", "ghost", "basics"] (by decide)
  refine ⟨by rw [h.2.1]; rfl, ?_⟩
  obtain ⟨evs, names, hq, hevs, _⟩ := h.2.2
  exact ⟨evs, names, hq, hevs⟩

/-- A configuration whose appendix list references an unknown
document. -/
def cfg_ghost_appendix : WriteConfig :=
  { pearson_chapters := ["intro"], latex_appendices := ["ghost"],
    env_docs := env2, pearson_title := "t", pearson_subtitle := "s",
    pearson_author := "au", outdir := "out" }

/-- C4 counterexample: with the appendix list [ghost] where ghost is not
a known document, `write` aborts with a doctree error instead of logging
and skipping the identifier — the run does not continue. -/
theorem c4_unknown_appendix_counterexample :
    write render_ok cfg_ghost_appendix =
      Except.error (WriteError.doctree ("no document named " ++ "ghost")) := rfl

/-- C4 amended: appendix identifiers are never checked against the known
documents; an unknown appendix identifier is handed straight to document
retrieval, whose failure aborts the whole run with a doctree error. -/
theorem c4_unknown_appendix_aborts
    (render : String → GlobalContext → Except RenderError String)
    (cfg : WriteConfig)
    (hr : ∀ tn ctx, ∃ b, render tn ctx = Except.ok b)
    (hbad : ∃ d ∈ cfg.latex_appendices, d ∉ all_docs cfg.env_docs) :
    ∃ msg, write render cfg = Except.error (WriteError.doctree msg) := by
  obtain ⟨b1, hb1⟩ := hr "half-title.tex" (initial_context cfg)
  obtain ⟨b2, hb2⟩ := hr "title.tex" (initial_context cfg)
  obtain ⟨msg, hmsg⟩ := process_seq_error_of_unknown
    (if 100 ≤ cfg.latex_appendices.length then 3 else 2) "app"
    cfg.latex_appendices hbad 1
  refine ⟨msg, ?_⟩
  simp only [write, render_template, hb1, hb2, chapter_phase_ok_cfg cfg,
    appendix_phase, hmsg]

/-- C4 witness for the amended claim: the concrete run with the unknown
appendix aborts with a doctree error. -/
theorem c4_unknown_appendix_aborts_witness :
    ∃ msg, write render_ok cfg_ghost_appendix =
      Except.error (WriteError.doctree msg) :=
  c4_unknown_appendix_aborts render_ok cfg_ghost_appendix
    (fun _ _ => ⟨"", rfl⟩) (by decide)

/-- C9: The run is a single linear pass — the stylesheet and front
matter, then all chapters in input order, then all appendices in input
order, then the aggregate book template last — and the book template is
rendered with external_docs equal to exactly the chapter output names
followed by the appendix output names, in emission order. -/
theorem c9_linear_pass (render : String → GlobalContext → Except RenderError String)
    (cfg : WriteConfig)
    (hr : ∀ tn ctx, ∃ b, render tn ctx = Except.ok b)
    (happ : ∀ d ∈ cfg.latex_appendices, d ∈ all_docs cfg.env_docs) :
    ∃ r, write render cfg = Except.ok r ∧
      r.events = WriteEvent.pygments
        :: WriteEvent.render_template "half-title.tex"
        :: WriteEvent.render_template "title.tex"
        :: (((document_data cfg).zip r.context.chapter_names).map
              (fun q => WriteEvent.write_doc q.1 q.2)
            ++ (cfg.latex_appendices.zip r.context.appendices).map
              (fun q => WriteEvent.write_doc q.1 q.2)
            ++ [WriteEvent.render_template "book.tex"]) ∧
      r.context.external_docs = r.context.chapter_names ++ r.context.appendices :=
  ⟨_, write_ok_spec render cfg hr happ, rfl, rfl⟩

/-- C9 witness: the concrete one-chapter one-appendix run produces the
linear trace with the book context listing chap01 then app01. -/
theorem c9_linear_pass_witness :
    ∃ r, write render_ok cfg_a = Except.ok r ∧
      r.events = WriteEvent.pygments
        :: WriteEvent.render_template "half-title.tex"
        :: WriteEvent.render_template "title.tex"
        :: (((document_data cfg_a).zip r.context.chapter_names).map
              (fun q => WriteEvent.write_doc q.1 q.2)
            ++ (cfg_a.latex_appendices.zip r.context.appendices).map
              (fun q => WriteEvent.write_doc q.1 q.2)
            ++ [WriteEvent.render_template "book.tex"]) ∧
      r.context.external_docs = r.context.chapter_names ++ r.context.appendices :=
  c9_linear_pass render_ok cfg_a (fun _ _ => ⟨"", rfl⟩) (by decide)

/-- C5: Every pending cross-reference marker is replaced in place by an
emphasized run naming the target section, suffixed with " (in <title>)"
exactly when the target docname starts with a prefix in the title
mapping; the rewriting is total and leaves no pending marker, so broken
cross-unit references become inert text rather than failures. -/
theorem c5_pending_xref_rewrite (titles : List (String × String)) (d s : String)
    (pre post : List DocNode) :
    resolve_pending_list titles (pre ++ DocNode.pending_xref d s :: post) =
      resolve_pending_list titles pre ++ xref_replacement titles d s ++
        resolve_pending_list titles post ∧
    (xref_replacement titles d s).headD (DocNode.text "") = DocNode.emphasis s ∧
    ((∃ pr ∈ titles, str_startswith d pr.1 = true) ↔
      ∃ t, xref_replacement titles d s =
        [DocNode.emphasis s, DocNode.text " (in ", DocNode.emphasis t,
          DocNode.text ")"]) ∧
    (xref_replacement titles d s = [DocNode.emphasis s] ↔
      ¬∃ pr ∈ titles, str_startswith d pr.1 = true) ∧
    has_pending_list
      (resolve_pending_list titles (pre ++ DocNode.pending_xref d s :: post)) = false := by
  refine ⟨?_, rfl, ?_, ?_, has_pending_resolve_list titles _⟩
  · rw [resolve_pending_list_append, resolve_pending_list, resolve_pending,
      List.append_assoc]
  · unfold xref_replacement
    cases hf : titles.find? (fun pr => str_startswith d pr.1) with
    | none =>
      rw [List.find?_eq_none] at hf
      constructor
      · rintro ⟨pr, hpr, hst⟩
        exact absurd hst (hf pr hpr)
      · rintro ⟨t, ht⟩
        simp at ht
    | some pr =>
      constructor
      · intro _
        exact ⟨pr.2, rfl⟩
      · intro _
        have hp := List.find?_some hf
        exact ⟨pr, List.mem_of_find?_eq_some hf, hp⟩
  · unfold xref_replacement
    cases hf : titles.find? (fun pr => str_startswith d pr.1) with
    | none =>
      rw [List.find?_eq_none] at hf
      constructor
      · rintro - ⟨pr, hpr, hst⟩
        exact absurd hst (hf pr hpr)
      · intro _
        rfl
    | some pr =>
      constructor
      · intro ht
        simp at ht
      · intro hno
        have hp := List.find?_some hf
        exact absurd ⟨pr, List.mem_of_find?_eq_some hf, hp⟩ hno

/-- C5 witness: a matching pending reference among siblings becomes the
emphasized section name plus the " (in <title>)" suffix, in place. -/
theorem c5_pending_xref_rewrite_witness :
    resolve_pending_list [("articles/", "The Book")]
        [DocNode.text "a", DocNode.pending_xref "articles/x" "Sect"] =
      [DocNode.text "a", DocNode.emphasis "Sect", DocNode.text " (in ",
        DocNode.emphasis "The Book", DocNode.text ")"] := by
  have h := c5_pending_xref_rewrite [("articles/", "The Book")] "articles/x" "Sect"
    [DocNode.text "a"] []
  rw [show ([DocNode.text "a", DocNode.pending_xref "articles/x" "Sect"] : List DocNode) =
      [DocNode.text "a"] ++ DocNode.pending_xref "articles/x" "Sect" :: [] from rfl, h.1]
  simp [resolve_pending_list, resolve_pending, xref_replacement, List.find?,
    show str_startswith "articles/x" "articles/" = true from by decide]

/-- C6: If a logo is configured and its file does not exist under the
configuration directory, `finish` aborts with a hard error and the
event trace contains no theme static-file copy. -/
theorem c6_missing_logo_aborts_before_static (c : FinishConfig) (logo : String)
    (hl : c.latex_logo = some logo) (hmiss : logo ∉ c.confdir_files) :
    (finish c).2 = some ("logo file " ++ logo ++ " does not exist") ∧
    ∀ e ∈ (finish c).1, ∀ entry, e ≠ FinishEvent.copy_static entry := by
  simp only [finish, hl]
  rw [if_neg hmiss]
  refine ⟨rfl, ?_⟩
  intro e he entry
  rcases List.mem_append.mp he with h | h
  · obtain ⟨pr, -, rfl⟩ := List.mem_map.mp h
    simp
  · obtain ⟨f, -, rfl⟩ := List.mem_map.mp h
    simp

/-- A finish configuration whose logo file is missing from confdir. -/
def fin_missing_logo : FinishConfig :=
  { images := [("img.png", "img.png")], latex_additional_files := ["extra.sty"],
    latex_logo := some "logo.png", confdir_files := ["other.txt"],
    outdir_files := [], theme_dirchain := some ["theme"] }

/-- C6 witness: the concrete finish run errors on the missing logo and
copies no static entry. -/
theorem c6_missing_logo_aborts_before_static_witness :
    (finish fin_missing_logo).2 =
      some ("logo file " ++ "logo.png" ++ " does not exist") ∧
    ∀ e ∈ (finish fin_missing_logo).1, ∀ entry, e ≠ FinishEvent.copy_static entry :=
  c6_missing_logo_aborts_before_static fin_missing_logo "logo.png" rfl (by decide)

/-- C7: When the template engine raises, _render_template re-raises the
same exception (it propagates to the caller, aborting the run) and the
surfaced log line carries both the template name and the originating
source line number. -/
theorem c7_render_failure_propagates
    (render : String → GlobalContext → Except RenderError String)
    (tn fn : String) (ctx : GlobalContext) (err : RenderError)
    (h : render tn ctx = Except.error err) :
    (render_template render tn fn ctx).2 = Except.error err ∧
    (render_template render tn fn ctx).1.getLast? =
      some ("Failed to render template " ++ tn ++ ": " ++ err.message ++
        " at " ++ Nat.repr err.lineno) := by
  rw [render_template, h]
  exact ⟨rfl, rfl⟩

/-- A template engine that always raises with line number 17. -/
def render_bad : String → GlobalContext → Except RenderError String :=
  fun _ _ => Except.error { message := "boom", lineno := 17 }

/-- C7 witness: the failing render of book.tex propagates the exception
and logs the template name together with line 17. -/
theorem c7_render_failure_propagates_witness :
    (render_template render_bad "book.tex" "out/book.tex" (initial_context cfg_a)).2 =
      Except.error { message := "boom", lineno := 17 } ∧
    (render_template render_bad "book.tex" "out/book.tex"
        (initial_context cfg_a)).1.getLast? =
      some ("Failed to render template " ++ "book.tex" ++ ": " ++ "boom" ++
        " at " ++ Nat.repr 17) :=
  c7_render_failure_propagates render_bad "book.tex" "out/book.tex"
    (initial_context cfg_a) { message := "boom", lineno := 17 } rfl

/-- A configuration carrying the invalid sectioning value "bogus". -/
def bogus_sectioning : SectioningConfig :=
  { latex_toplevel_sectioning := some "bogus",
    latex_top_sectionlevel := some "whatever", latex_use_parts := false }

/-- C8 as the code behaves: an invalid latex_toplevel_sectioning value
triggers the warning (which interpolates the unrelated
latex_top_sectionlevel attribute) and the run continues, but the
offending option is left in place — the assignment clears
latex_top_sectionlevel instead, so the invalid value is not ignored. -/
theorem c8_invalid_sectioning_not_cleared :
    (check_options bogus_sectioning).2 =
      ["invalid latex_toplevel_sectioning, ignored: whatever"] ∧
    (check_options bogus_sectioning).1.latex_toplevel_sectioning = some "bogus" ∧
    (check_options bogus_sectioning).1.latex_top_sectionlevel = none := by
  refine ⟨rfl, rfl, rfl⟩

/-- C10: get_target_uri raises NoUri exactly when the docname is not in
the builder's docnames, and otherwise returns the percent-prefixed
docname; get_relative_uri ignores its source argument; and
assemble_doctree overwrites docnames with the root identifier plus the
appendices, whatever the prior value was. -/
theorem c10_target_uri_docnames (docnames : List String) (d fro : String)
    (gd : String → Except String DocNode) (it rr : DocNode → DocNode)
    (titles : List (String × String)) (prior : List String)
    (idx : String) (apps : List String) :
    (get_target_uri docnames d = Except.error () ↔ d ∉ docnames) ∧
    (d ∈ docnames → get_target_uri docnames d = Except.ok ("%" ++ d)) ∧
    get_relative_uri docnames fro d = get_target_uri docnames d ∧
    (assemble_doctree gd it rr titles prior idx apps).1 = idx :: apps := by
  refine ⟨?_, ?_, rfl, rfl⟩
  · by_cases h : d ∈ docnames <;> simp [get_target_uri, h]
  · intro h
    simp [get_target_uri, h]

/-- A doctree getter that always fails, for the witness. -/
def gd_none : String → Except String DocNode := fun d => Except.error d

/-- C10 witness: with docnames = [root, appA] (the most recent
assemble_doctree call), root resolves to %root, an outside docname
raises NoUri, get_relative_uri agrees, and a new call overwrites the
set. -/
theorem c10_target_uri_docnames_witness :
    get_target_uri ["root", "appA"] "root" = Except.ok ("%" ++ "root") ∧
    (get_target_uri ["root", "appA"] "zzz" = Except.error () ↔
      "zzz" ∉ (["root", "appA"] : List String)) ∧
    get_relative_uri ["root", "appA"] "src" "root" =
      get_target_uri ["root", "appA"] "root" ∧
    (assemble_doctree gd_none id id [] ["old", "stale"] "root" ["appA"]).1 =
      "root" :: ["appA"] := by
  have h1 := c10_target_uri_docnames ["root", "appA"] "root" "src" gd_none id id
    [] ["old", "stale"] "root" ["appA"]
  have h2 := c10_target_uri_docnames ["root", "appA"] "zzz" "src" gd_none id id
    [] ["old", "stale"] "root" ["appA"]
  exact ⟨h1.2.1 (by decide), h2.1, h1.2.2.1, h1.2.2.2⟩
